import Mathlib

/-!
Verification of the signal/state computation engine of the stock-decision-maker
repository, a shallow embedding of `src/python_mse/compute.py`.

Modelling conventions:
* Python dicts are association lists `List (String × β)` (insertion-ordered,
  duplicate-free keys), looked up with `dget` (= `dict.get`, returning `Option`).
* Prices are rationals `ℚ`: the price-table invariant (complete data, positive
  prices) means no NaN/inf ever arises in the value or SMA series, so `ℚ`
  arithmetic coincides with the float arithmetic of the source on that domain.
* Python exceptions (`ValueError`) are `Except String`; an uncaught exception is
  an `Except.error` carrying the message.
* Optional dict keys are `Option` fields; `none` models an absent key.
* `pandas.rolling(window).mean()` over a complete series is `rollingMean`:
  defined (`some`) exactly from the `window`-th element on.
-/

namespace MSE

/-- One `{signal, is}` condition object of a v0.4 label definition.
`none` fields model absent dict keys (checked by the validator). -/
structure CondDef where
  signal : Option String := none
  is : Option String := none
deriving DecidableEq, Repr

/-- A label definition in `market_state.labels`: an optional `default` marker
and an optional `all` condition list (absent key = `none`). -/
structure LabelDef where
  default : Option Bool := none
  all : Option (List CondDef) := none
deriving DecidableEq, Repr

instance : Inhabited LabelDef := ⟨{}⟩

/-- The `market_state.output` sub-dict: optional `field` and `na_label` keys. -/
structure OutputCfg where
  field : Option String := none
  na_label : Option String := none
deriving DecidableEq, Repr

instance : Inhabited OutputCfg := ⟨{}⟩

/-- The `market_state` block of the configuration (all keys optional; the
validator enforces presence/shape of the required ones). -/
structure MarketState where
  required_signals : Option (List String) := none
  labels_order : Option (List String) := none
  labels : Option (List (String × LabelDef)) := none
  enabled : Option Bool := none
  output : Option OutputCfg := none
  version : Option String := none
deriving DecidableEq, Repr

instance : Inhabited MarketState := ⟨{}⟩

/-- A signal definition: `kind` (`relative_strength` with tickers `a`, `b`, or
`price_proxy` with `ticker`) plus a `rule` (`gt_sma` or `lt_sma`). -/
structure SignalDef where
  kind : String
  rule : String
  a : Option String := none
  b : Option String := none
  ticker : Option String := none
deriving DecidableEq, Repr

/-- The loaded `signals.yaml` configuration (top-level keys). -/
structure Config where
  price_field : Option String := none
  window : Option Nat := none
  bench : Option String := none
  signals : List (String × SignalDef) := []
  version : Option String := none
  market_state : Option MarketState := none
deriving DecidableEq, Repr

/-- A per-signal entry of the dict handed to `compute_market_state_v04`:
`{"signal": <classification>}`, with `none` modelling an absent `signal` key. -/
structure SigEntry where
  signal : Option String := none
deriving DecidableEq, Repr

/-- A market-state result dict `{label, rule}`, optionally with a `missing`
key listing the offending required signals. -/
structure StateResult where
  label : String
  rule : String
  missing : Option (List String) := none
deriving DecidableEq, Repr

/-- A `metrics` entry: the numeric value and SMA used for one signal
(`none` = JSON null, emitted when the SMA is NA). -/
structure MetricEntry where
  value : Option ℚ := none
  sma : Option ℚ := none
deriving DecidableEq, Repr

/-- The `inputs` block of a record. The legacy v0.1 path additionally writes a
`bench` key; the config-driven path does not. -/
structure Inputs where
  bench : Option String := none
  price_field : String
  window : Nat
  tickers : List String
deriving DecidableEq, Repr

/-- One output record. `state` is `some (fieldName, result)` when the record
carries a state object under dict key `fieldName`; the legacy v0.1 path emits
neither a state object nor a `metrics` mapping, modelled by `none`. -/
structure Record where
  date : String
  signals : List (String × String)
  state : Option (String × StateResult) := none
  metrics : Option (List (String × MetricEntry)) := none
  inputs : Inputs
  version : String
deriving DecidableEq, Repr

/-- The price table: dates in ascending order and, for each ticker, its column
of prices (complete data: one value per date, as the PriceTable invariant
requires). `compute.py` sorts the frame first; `dates` is the sorted index. -/
structure PriceTable where
  dates : List String
  col : String → List ℚ

/-- Python `dict.get`: first binding of `key` in the association list. -/
def dget {β : Type} : List (String × β) → String → Option β
  | [], _ => none
  | (k, v) :: rest, key => if k = key then some v else dget rest key

/-- Sequencing a fallible computation over a list, stopping at the first
error — the Python `for` loop with a `raise` inside. -/
def mapME {α β : Type} (f : α → Except String β) : List α → Except String (List β)
  | [] => .ok []
  | x :: xs =>
    match f x with
    | .error e => .error e
    | .ok y =>
      match mapME f xs with
      | .error e => .error e
      | .ok ys => .ok (y :: ys)

/-- The shared rule dispatch of `compute_signal` (compute.py lines 40-45) and
the per-date loop of `compute_signals_v2` (lines 225-230): `gt_sma` is UP iff
value > sma, `lt_sma` is UP iff value < sma, anything else raises. -/
def classifyRule (rule : String) (value sma : ℚ) : Except String String :=
  if rule = "gt_sma" then .ok (if sma < value then "UP" else "DOWN")
  else if rule = "lt_sma" then .ok (if value < sma then "UP" else "DOWN")
  else .error ("Unknown rule: " ++ rule)

/-- `compute_signal` (compute.py lines 23-47) at the last elements of its two
series: `val` the last value, `sma` the last SMA (`none` = NA). -/
def compute_signal (val : ℚ) (sma : Option ℚ) (rule : String) :
    Except String (String × ℚ × Option ℚ) :=
  match sma with
  | none => .ok ("NA", val, none)
  | some s =>
    match classifyRule rule val s with
    | .error e => .error e
    | .ok sig => .ok (sig, val, some s)

/-- `series.rolling(window=w).mean()` at index `i` of a complete series:
NA (`none`) while fewer than `window` samples are available, otherwise the
mean of the `window` values ending at and including index `i`. -/
def rollingMean (window : Nat) (vals : List ℚ) (i : Nat) : Option ℚ :=
  if i + 1 < window then none
  else some ((((vals.take (i + 1)).drop (i + 1 - window)).sum) / (window : ℚ))

/-- Precomputed data for one signal: its value series and its rule
(the `signal_data` entries of `compute_signals_v2`, lines 174-194). -/
structure SignalData where
  vals : List ℚ
  rule : String
deriving DecidableEq, Repr

/-- The value series of one signal definition (compute.py lines 179-187):
element-wise ratio of two ticker columns for `relative_strength`, the raw
ticker column for `price_proxy`, and a fatal error for any other kind. -/
def valueSeries (prices : PriceTable) (sd : SignalDef) : Except String (List ℚ) :=
  if sd.kind = "relative_strength" then
    .ok (List.zipWith (· / ·) (prices.col (sd.a.getD "")) (prices.col (sd.b.getD "")))
  else if sd.kind = "price_proxy" then
    .ok (prices.col (sd.ticker.getD ""))
  else
    .error ("Unknown signal kind: " ++ sd.kind)

/-- The signal pre-computation loop of `compute_signals_v2` (lines 174-194):
runs before any date is processed, raising on an unknown `kind`. The rule
string is stored unexamined. -/
def buildSignalData (prices : PriceTable) :
    List (String × SignalDef) → Except String (List (String × SignalData))
  | [] => .ok []
  | (n, sd) :: rest =>
    match valueSeries prices sd with
    | .error e => .error e
    | .ok vals =>
      match buildSignalData prices rest with
      | .error e => .error e
      | .ok rs => .ok ((n, ⟨vals, sd.rule⟩) :: rs)

/-- One signal at one date inside the per-date loop (lines 213-237): NA with a
null SMA metric when the SMA is NA, otherwise the rule dispatch (which raises
on an unknown rule — only here, per date, is the rule examined). -/
def signalEval (sdata : SignalData) (window i : Nat) :
    Except String (String × MetricEntry) :=
  match rollingMean window sdata.vals i with
  | none => .ok ("NA", ⟨some (sdata.vals.getD i 0), none⟩)
  | some sma =>
    match classifyRule sdata.rule (sdata.vals.getD i 0) sma with
    | .error e => .error e
    | .ok sig => .ok (sig, ⟨some (sdata.vals.getD i 0), some sma⟩)

/-- The inner `for signal_name, data in signal_data.items()` loop of the
per-date loop: evaluates every signal at date index `i`, stopping at the
first error. -/
def evalSignalsAt (sdl : List (String × SignalData)) (window i : Nat) :
    Except String (List (String × (String × MetricEntry))) :=
  match sdl with
  | [] => .ok []
  | (n, s) :: rest =>
    match signalEval s window i with
    | .error e => .error e
    | .ok r =>
      match evalSignalsAt rest window i with
      | .error e => .error e
      | .ok rs => .ok ((n, r) :: rs)

/-- `compute_market_state` (compute.py lines 267-287), the fixed three-signal
legacy rule over the per-date `signals` dict. -/
def compute_market_state (signals : List (String × String)) : StateResult :=
  if dget signals "tech" = some "NA" ∨ dget signals "utilities" = some "NA" ∨
      dget signals "rates" = some "NA" then
    ⟨"NA", "v0.3_basic", none⟩
  else if dget signals "tech" = some "UP" ∧ dget signals "utilities" = some "DOWN" ∧
      dget signals "rates" = some "DOWN" then
    ⟨"RISK_ON", "v0.3_basic", none⟩
  else if dget signals "tech" = some "DOWN" ∧ dget signals "utilities" = some "UP" ∧
      dget signals "rates" = some "UP" then
    ⟨"RISK_OFF", "v0.3_basic", none⟩
  else
    ⟨"MIXED", "v0.3_basic", none⟩

/-- The per-label body of the `for label in labels_order` loop of
`validate_market_state_config` (compute.py lines 72-98). -/
def checkLabel (labels : List (String × LabelDef)) (label : String) :
    Except String Unit :=
  match dget labels label with
  | none => .error ("market_state.labels." ++ label ++ " must be a dict")
  | some ld =>
    if ld.default = some true ∧ ld.all = none then .ok ()
    else
      match ld.all with
      | none => .error ("market_state.labels." ++ label ++ ".all must be a non-empty list")
      | some conds =>
        if conds = [] then
          .error ("market_state.labels." ++ label ++ ".all must be a non-empty list")
        else if conds.all (fun c => c.signal.isSome && c.is.isSome) then .ok ()
        else .error ("market_state.labels." ++ label ++ ".all entries require signal and is")

/-- Whether one `{signal, is}` condition of the matching loop holds:
`actual.get(cond["signal"]) == cond["is"]` (compute.py line 133). -/
def condSatisfied (cls : String → Option String) (c : CondDef) : Bool :=
  cls (c.signal.getD "") == some (c.is.getD "")

/-- The label loop of the validator, in `labels_order` order. -/
def validateLabels (labels : List (String × LabelDef)) :
    List String → Except String Unit
  | [] => .ok ()
  | l :: rest =>
    match checkLabel labels l with
    | .error e => .error e
    | .ok _ => validateLabels labels rest

/-- `validate_market_state_config` (compute.py lines 50-98). The
"only strings" checks are typed away by the embedding. -/
def validate_market_state_config (config : Config) : Except String Unit :=
  match config.market_state with
  | none => .error "market_state config is required and must be a dict"
  | some ms =>
    match ms.required_signals with
    | none => .error "market_state.required_signals must be a non-empty list"
    | some rs =>
      if rs = [] then .error "market_state.required_signals must be a non-empty list"
      else
        match ms.labels_order with
        | none => .error "market_state.labels_order must be a non-empty list"
        | some order =>
          if order = [] then .error "market_state.labels_order must be a non-empty list"
          else
            match ms.labels with
            | none => .error "market_state.labels must be a dict"
            | some labels => validateLabels labels order

/-- The `missing` accumulation loop of `compute_market_state_v04` (lines
112-119): a required name is offending when absent from the signal set, when
its entry lacks a `signal` key, or when it is classified NA. -/
def missingSignals (signals : List (String × SigEntry)) (required : List String) :
    List String :=
  required.filter (fun name =>
    match dget signals name with
    | none => true
    | some e => e.signal.isNone || e.signal == some "NA")

/-- The `actual` dict of `compute_market_state_v04` (line 124), as its `get`:
defined only on required signal names (a comprehension over
`required_signals`), `None` on every other name. -/
def actualGet (signals : List (String × SigEntry)) (required : List String)
    (name : String) : Option String :=
  if required.contains name then (dget signals name).bind SigEntry.signal else none

/-- The `for label in labels_order` matching loop of `compute_market_state_v04`
(lines 128-135): skip labels without a (non-empty) `all` list, return the first
label all of whose conditions hold of `actual`. -/
def labelLoop (actual : String → Option String) (labels : List (String × LabelDef)) :
    List String → Option String
  | [] => none
  | l :: rest =>
    match ((dget labels l).getD {}).all with
    | none => labelLoop actual labels rest
    | some conds =>
      if conds = [] then labelLoop actual labels rest
      else if conds.all (condSatisfied actual) then some l
      else labelLoop actual labels rest

/-- The default-label search of `compute_market_state_v04` (lines 137-141):
the first label of the `labels` dict (insertion order) marked `default: true`. -/
def firstDefault : List (String × LabelDef) → Option String
  | [] => none
  | (n, ld) :: rest => if ld.default = some true then some n else firstDefault rest

/-- `compute_market_state_v04` (compute.py lines 101-146). -/
def compute_market_state_v04 (signals : List (String × SigEntry)) (config : Config) :
    Except String StateResult :=
  match validate_market_state_config config with
  | .error e => .error e
  | .ok _ =>
    let ms := config.market_state.getD {}
    let na_label := ((ms.output.getD {}).na_label).getD "NA"
    if ms.enabled = some false then .ok ⟨na_label, "disabled", none⟩
    else
      let required := ms.required_signals.getD []
      let missing := missingSignals signals required
      if missing = [] then
        match labelLoop (actualGet signals required) (ms.labels.getD []) (ms.labels_order.getD []) with
        | some l => .ok ⟨l, "v0.4_config", none⟩
        | none =>
          match firstDefault (ms.labels.getD []) with
          | some d => .ok ⟨d, "v0.4_config", none⟩
          | none => .ok ⟨"MIXED", "v0.4_config", none⟩
      else .ok ⟨na_label, "v0.4_config", some missing⟩

/-- Code-point comparison of characters. -/
def charLtB (a b : Char) : Bool := a.toNat < b.toNat

/-- Lexicographic comparison of character lists. -/
def listCharLe : List Char → List Char → Bool
  | [], _ => true
  | _ :: _, [] => false
  | x :: xs, y :: ys =>
    if charLtB x y then true
    else if charLtB y x then false
    else listCharLe xs ys

/-- Lexicographic string comparison by code points — the order `sorted` uses
on Python strings. -/
def strLe (a b : String) : Bool := listCharLe a.data b.data

/-- Insertion into a sorted list of strings. -/
def insertSorted (x : String) : List String → List String
  | [] => [x]
  | y :: ys => if strLe x y then x :: y :: ys else y :: insertSorted x ys

/-- Insertion sort for strings. -/
def sortStrings (l : List String) : List String := l.foldr insertSorted []

/-- Removes duplicate strings (keeping one occurrence of each element). -/
def dedupS : List String → List String
  | [] => []
  | x :: xs => if x ∈ xs then dedupS xs else x :: dedupS xs

/-- Python `sorted(list(set(l)))`: the distinct elements of `l` in ascending
order. -/
def sortedDedup (l : List String) : List String := sortStrings (dedupS l)

/-- The `all_tickers` collection of `compute_signals_v2` (lines 196-204):
the benchmark plus every `a`, `b` or `ticker` key present in any signal
definition (before dedup/sort). -/
def tickerList (bench : String) (sigs : List (String × SignalDef)) : List String :=
  bench :: sigs.foldr
    (fun p acc => p.2.a.toList ++ p.2.b.toList ++ p.2.ticker.toList ++ acc) []

/-- The dict key under which `compute_signals_v2` stores the state object:
the configured `output.field` (default `state`) on the v0.4 path, literally
`state` otherwise (lines 240-253). -/
def stateFieldName (config : Config) : String :=
  if (config.market_state.getD {}).version = some "0.4" then
    (((config.market_state.getD {}).output.getD {}).field).getD "state"
  else "state"

/-- The fields of a per-date record that do not depend on the state result:
date string, signal mapping, metrics mapping, inputs block and version tag
(compute.py lines 208, 237-239, 254-260). -/
def baseRecord (prices : PriceTable) (config : Config) (tickers : List String)
    (i : Nat) (results : List (String × (String × MetricEntry)))
    (st : String × StateResult) : Record :=
  { date := prices.dates.getD i ""
    signals := results.map (fun p => (p.1, p.2.1))
    state := some st
    metrics := some (results.map (fun p => (p.1, p.2.2)))
    inputs := { bench := none, price_field := config.price_field.getD "adj_close",
                window := config.window.getD 20, tickers := tickers }
    version := config.version.getD "0.2" }

/-- One iteration of the `for date in df.index` loop of `compute_signals_v2`
(lines 207-262), at date index `i`: evaluate every signal, then attach the
state object — under the configured output field on the v0.4 path, under
`state` with the legacy three-signal rule otherwise. -/
def dateRecord (prices : PriceTable) (config : Config)
    (sdl : List (String × SignalData)) (tickers : List String) (i : Nat) :
    Except String Record :=
  match evalSignalsAt sdl (config.window.getD 20) i with
  | .error e => .error e
  | .ok results =>
    if (config.market_state.getD {}).version = some "0.4" then
      match compute_market_state_v04
          (results.map (fun p => (p.1, ⟨some p.2.1⟩))) config with
      | .error e => .error e
      | .ok st =>
        .ok (baseRecord prices config tickers i results
          (((((config.market_state.getD {}).output.getD {}).field).getD "state"), st))
    else
      .ok (baseRecord prices config tickers i results
        ("state", compute_market_state (results.map (fun p => (p.1, p.2.1)))))

/-- The v0.4 validation gate run by `compute_signals_v2` before any signal is
computed (compute.py lines 168-171). -/
def v2gate (config : Config) : Except String Unit :=
  if (config.market_state.getD {}).version = some "0.4" then
    validate_market_state_config config
  else .ok ()

/-- `compute_signals_v2` (compute.py lines 149-264): market-state validation
gate (v0.4 only), the signal pre-computation (unknown kinds raise here), then
the per-date record loop. -/
def compute_signals_v2 (prices : PriceTable) (config : Config) :
    Except String (List Record) :=
  match v2gate config with
  | .error e => .error e
  | .ok _ =>
    match buildSignalData prices config.signals with
    | .error e => .error e
    | .ok sdl =>
      mapME (dateRecord prices config sdl
          (sortedDedup (tickerList (config.bench.getD "SPY") config.signals)))
        (List.range prices.dates.length)

/-- The legacy v0.1 branch of `compute_signals` (compute.py lines 299-366):
hardcoded energy/rates/tech/utilities signals; the emitted rows carry neither a
state object nor a metrics mapping, and the ticker list is the fixed, unsorted
`[XLE, TLT, XLK, XLU, SPY]`. -/
def compute_signals_v01 (prices : PriceTable) (window : Nat) : List Record :=
  let rsEnergy := List.zipWith (· / ·) (prices.col "XLE") (prices.col "SPY")
  let rsTech := List.zipWith (· / ·) (prices.col "XLK") (prices.col "SPY")
  let rsUtil := List.zipWith (· / ·) (prices.col "XLU") (prices.col "SPY")
  let tlt := prices.col "TLT"
  (List.range prices.dates.length).map (fun i =>
    let energy :=
      match rollingMean window rsEnergy i with
      | none => "NA"
      | some m => if m < rsEnergy.getD i 0 then "UP" else "DOWN"
    let rates :=
      match rollingMean window tlt i with
      | none => "NA"
      | some m => if tlt.getD i 0 < m then "UP" else "DOWN"
    let tech :=
      match rollingMean window rsTech i with
      | none => "NA"
      | some m => if m < rsTech.getD i 0 then "UP" else "DOWN"
    let utilities :=
      match rollingMean window rsUtil i with
      | none => "NA"
      | some m => if m < rsUtil.getD i 0 then "UP" else "DOWN"
    { date := prices.dates.getD i ""
      signals := [("energy", energy), ("rates", rates), ("tech", tech), ("utilities", utilities)]
      state := none
      metrics := none
      inputs := { bench := some "SPY", price_field := "adj_close", window := window,
                  tickers := ["XLE", "TLT", "XLK", "XLU", "SPY"] }
      version := "0.1" })

/-- `compute_signals` (compute.py lines 290-366): config-driven v0.2 logic when
a config is given, the hardcoded v0.1 logic otherwise (the `window` argument is
only used on the v0.1 path, as in the source). -/
def compute_signals (prices : PriceTable) (window : Nat) (config : Option Config) :
    Except String (List Record) :=
  match config with
  | some c => compute_signals_v2 prices c
  | none => .ok (compute_signals_v01 prices window)

deriving instance DecidableEq for Except

/-- The spec-worded offending-signal list for a date: the required signals that
are absent from the signal set or classified NA (coincides with
`missingSignals` whenever every entry carries a `signal` key, as the engine
guarantees). -/
def offendingSignals (signals : List (String × SigEntry)) (required : List String) :
    List String :=
  required.filter (fun name =>
    match dget signals name with
    | none => true
    | some e => e.signal == some "NA")

/-- The date's actual classification of a signal name: the classification
recorded in the full signal set for that name. -/
def classificationOf (signals : List (String × SigEntry)) (name : String) :
    Option String :=
  (dget signals name).bind SigEntry.signal

/-- Spec-side (amended) label selection: the first label of `labels_order`
whose `all` condition list is fully satisfied by `actual`; otherwise the first
label of the `labels` mapping marked default; otherwise the literal MIXED. -/
def specLabelChoice (actual : String → Option String)
    (labels : List (String × LabelDef)) (order : List String) : String :=
  match order.find? (fun l =>
    match (dget labels l).bind LabelDef.all with
    | none => false
    | some conds => conds.all (condSatisfied actual)) with
  | some l => l
  | none =>
    match labels.find? (fun p => p.2.default == some true) with
    | some p => p.1
    | none => "MIXED"

/-- Signal set for the C4 counterexample: `tech` UP (required) and a second,
non-required signal `extra`, also UP. -/
def c4Signals : List (String × SigEntry) :=
  [("tech", { signal := some "UP" }), ("extra", { signal := some "UP" })]

/-- Market-state block for the C4 counterexample: only `tech` is required, and
the sole label WANT conditions on the non-required signal `extra`. -/
def c4MarketState : MarketState :=
  { required_signals := some ["tech"],
    labels_order := some ["WANT"],
    labels := some [("WANT", { all := some [{ signal := some "extra", is := some "UP" }] })],
    version := some "0.4" }

/-- Config for the C4 counterexample. -/
def c4Config : Config := { market_state := some c4MarketState }

/-- Signal set for the amended-C4 witness. -/
def c4wSignals : List (String × SigEntry) := [("tech", { signal := some "UP" })]

/-- Market-state block for the amended-C4 witness: one required signal, one
label matching it. -/
def c4wMarketState : MarketState :=
  { required_signals := some ["tech"],
    labels_order := some ["GOOD"],
    labels := some [("GOOD", { all := some [{ signal := some "tech", is := some "UP" }] })],
    version := some "0.4" }

/-- Config for the amended-C4 witness. -/
def c4wConfig : Config := { market_state := some c4wMarketState }

/-- Signal set for the C6 witness: required signal `rates` classified NA. -/
def c6Signals : List (String × SigEntry) := [("rates", { signal := some "NA" })]

/-- Market-state block for the C6 witness: `rates` required, custom `na_label`. -/
def c6MarketState : MarketState :=
  { required_signals := some ["rates"],
    labels_order := some ["RISK_ON"],
    labels := some [("RISK_ON", { all := some [{ signal := some "rates", is := some "DOWN" }] })],
    output := some { na_label := some "NO_SIGNAL" },
    version := some "0.4" }

/-- Config for the C6 witness. -/
def c6Config : Config := { market_state := some c6MarketState }

/-- Market-state block with two labels both marked default: exercised against
the validator for C8. -/
def c8MarketState : MarketState :=
  { required_signals := some ["tech"],
    labels_order := some ["D1", "D2"],
    labels := some [("D1", { default := some true }), ("D2", { default := some true })],
    version := some "0.4" }

/-- Config with two default labels. -/
def c8Config : Config := { market_state := some c8MarketState }

/-- A list of default-marked label definitions named by `ds`. -/
def extraDefaults (ds : List String) : List (String × LabelDef) :=
  ds.map (fun d => (d, { default := some true }))

/-- Appends default-marked labels (named by `ds`) to the `labels` mapping of a
configuration, leaving everything else unchanged. -/
def withExtraDefaults (config : Config) (ds : List String) : Config :=
  { config with market_state := config.market_state.map (fun ms =>
      { ms with labels := ms.labels.map (fun ls => ls ++ extraDefaults ds) }) }

/-- One-date price table (every column `[100]`). -/
def c7Prices : PriceTable := ⟨["d1"], fun _ => [100]⟩

/-- A signal definition with a known kind but an unknown rule. -/
def c7SignalDef : SignalDef := { kind := "price_proxy", rule := "bogus", ticker := some "A" }

/-- Config whose only signal has the unknown rule `bogus`. -/
def c7Config : Config := { signals := [("s", c7SignalDef)] }

/-- Config whose only signal has an unknown kind. -/
def c7kConfig : Config := { signals := [("s", { kind := "nope", rule := "gt_sma" })] }

/-- Twenty-date price table (every column twenty copies of 100). -/
def c7LongPrices : PriceTable :=
  ⟨List.replicate 20 "d", fun _ => List.replicate 20 100⟩

/-- The record `compute_signals_v2` emits for `c7Prices` and `c7Config`:
the unknown rule is never examined because the single date has no full
window, so the signal is NA and the run completes. -/
def c7Record : Record :=
  { date := "d1", signals := [("s", "NA")],
    state := some ("state", ⟨"MIXED", "v0.3_basic", none⟩),
    metrics := some [("s", { value := some 100, sma := none })],
    inputs := { bench := none, price_field := "adj_close", window := 20,
                tickers := ["A", "SPY"] },
    version := "0.2" }

/-- The record the legacy v0.1 path emits for `c7Prices`: no state object, no
metrics mapping, fixed unsorted ticker list. -/
def c9Record : Record :=
  { date := "d1",
    signals := [("energy", "NA"), ("rates", "NA"), ("tech", "NA"), ("utilities", "NA")],
    state := none, metrics := none,
    inputs := { bench := some "SPY", price_field := "adj_close", window := 20,
                tickers := ["XLE", "TLT", "XLK", "XLU", "SPY"] },
    version := "0.1" }

/-- Concrete price table for witnesses: two dates, every column `[1, 1]`. -/
def c1Prices : PriceTable := ⟨["d1", "d2"], fun _ => [1, 1]⟩

/-- Concrete signal definition for witnesses: a `price_proxy` under `gt_sma`. -/
def c1Def : SignalDef := { kind := "price_proxy", rule := "gt_sma", ticker := some "T" }

/-! ### Helper lemmas -/

theorem dget_mem {β : Type} {l : List (String × β)} {k : String} {v : β}
    (h : dget l k = some v) : (k, v) ∈ l := by
  induction l with
  | nil => simp [dget] at h
  | cons p rest ih =>
    rw [dget] at h
    by_cases hk : p.1 = k
    · rw [if_pos hk] at h
      have hp : p = (k, v) := by
        obtain ⟨k1, v1⟩ := p
        simp_all
      rw [hp]
      exact List.mem_cons_self _ _
    · rw [if_neg hk] at h
      exact List.mem_cons_of_mem _ (ih h)

theorem classifyRule_known (rule : String) (v s : ℚ)
    (hr : rule = "gt_sma" ∨ rule = "lt_sma") :
    ∃ sig, classifyRule rule v s = .ok sig ∧ (sig = "UP" ∨ sig = "DOWN") := by
  rcases hr with hr | hr <;> subst hr
  · refine ⟨if s < v then "UP" else "DOWN", ?_, ?_⟩
    · simp [classifyRule]
    · split <;> simp
  · refine ⟨if v < s then "UP" else "DOWN", ?_, ?_⟩
    · simp [classifyRule]
    · split <;> simp

theorem rollingMean_eq_none {window i : Nat} (vals : List ℚ) (h : i + 1 < window) :
    rollingMean window vals i = none := by
  simp [rollingMean, h]

theorem rollingMean_eq_some {window i : Nat} (vals : List ℚ) (h : window ≤ i + 1) :
    rollingMean window vals i =
      some ((((vals.take (i + 1)).drop (i + 1 - window)).sum) / (window : ℚ)) := by
  simp [rollingMean, Nat.not_lt.mpr h]

theorem signalEval_of_sma (sdata : SignalData) (window i : Nat) (sma : ℚ)
    (h : rollingMean window sdata.vals i = some sma) :
    signalEval sdata window i =
      match classifyRule sdata.rule (sdata.vals.getD i 0) sma with
      | .error e => .error e
      | .ok sig => .ok (sig, ⟨some (sdata.vals.getD i 0), some sma⟩) := by
  unfold signalEval
  rw [h]

theorem labelLoop_cons (actual : String → Option String)
    (labels : List (String × LabelDef)) (l : String) (rest : List String) :
    labelLoop actual labels (l :: rest) =
      match ((dget labels l).getD {}).all with
      | none => labelLoop actual labels rest
      | some conds =>
        if conds = [] then labelLoop actual labels rest
        else if conds.all (condSatisfied actual) then some l
        else labelLoop actual labels rest := rfl

theorem labelLoop_eq_find (actual : String → Option String)
    (labels : List (String × LabelDef)) (order : List String)
    (h : ∀ l ∈ order, ∃ ld, dget labels l = some ld ∧
      (∀ conds, ld.all = some conds → conds ≠ [])) :
    labelLoop actual labels order = order.find? (fun l =>
      match (dget labels l).bind LabelDef.all with
      | none => false
      | some conds => conds.all (condSatisfied actual)) := by
  induction order with
  | nil => rfl
  | cons l rest ih =>
    obtain ⟨ld, hld, hconds⟩ := h l (List.mem_cons_self _ _)
    have hrest := ih (fun x hx => h x (List.mem_cons_of_mem _ hx))
    have hbind : (dget labels l).bind LabelDef.all = ld.all := by
      rw [hld]
      rfl
    rw [labelLoop_cons, hld, List.find?_cons]
    cases ha : ld.all with
    | none =>
      simp only [Option.getD_some, ha, hbind]
      exact hrest
    | some conds =>
      have hne : conds ≠ [] := hconds conds ha
      simp only [Option.getD_some, ha, hbind, if_neg hne]
      by_cases hb : conds.all (condSatisfied actual) = true
      · rw [if_pos hb]
        simp only [hb]
      · have hb' : conds.all (condSatisfied actual) = false :=
          Bool.eq_false_iff.mpr hb
        rw [if_neg hb]
        simp only [hb']
        exact hrest

theorem firstDefault_eq_find (labels : List (String × LabelDef)) :
    firstDefault labels =
      (labels.find? (fun p => p.2.default == some true)).map Prod.fst := by
  induction labels with
  | nil => rfl
  | cons p rest ih =>
    obtain ⟨n, ld⟩ := p
    by_cases hd : ld.default = some true
    · rw [firstDefault, if_pos hd, List.find?_cons_of_pos _ (by simpa using hd)]
      rfl
    · rw [firstDefault, if_neg hd, List.find?_cons_of_neg _ (by simpa using hd), ih]

theorem validateLabels_ok_mem (labels : List (String × LabelDef)) :
    ∀ order, validateLabels labels order = .ok () →
      ∀ l ∈ order, checkLabel labels l = .ok () := by
  intro order
  induction order with
  | nil => intro _ l hl; simp at hl
  | cons x rest ih =>
    intro h l hl
    rw [validateLabels] at h
    cases hc : checkLabel labels x with
    | error e => rw [hc] at h; simp at h
    | ok u =>
      rw [hc] at h
      rcases List.mem_cons.mp hl with rfl | hl2
      · cases u; exact hc
      · exact ih h l hl2

theorem checkLabel_eq_of_dget (labels : List (String × LabelDef)) (l : String)
    (ld : LabelDef) (hd : dget labels l = some ld) :
    checkLabel labels l =
      if ld.default = some true ∧ ld.all = none then .ok ()
      else
        match ld.all with
        | none => .error ("market_state.labels." ++ l ++ ".all must be a non-empty list")
        | some conds =>
          if conds = [] then
            .error ("market_state.labels." ++ l ++ ".all must be a non-empty list")
          else if conds.all (fun c => c.signal.isSome && c.is.isSome) then .ok ()
          else .error ("market_state.labels." ++ l ++ ".all entries require signal and is") := by
  unfold checkLabel
  rw [hd]

theorem checkLabel_ok_facts (labels : List (String × LabelDef)) (l : String)
    (h : checkLabel labels l = .ok ()) :
    ∃ ld, dget labels l = some ld ∧ (∀ conds, ld.all = some conds → conds ≠ []) := by
  cases hd : dget labels l with
  | none =>
    unfold checkLabel at h
    rw [hd] at h
    simp at h
  | some ld =>
    have h2 := (checkLabel_eq_of_dget labels l ld hd).symm.trans h
    refine ⟨ld, rfl, ?_⟩
    intro conds hconds hnil
    subst hnil
    rw [hconds] at h2
    simp at h2

theorem missingSignals_eq_offending (signals : List (String × SigEntry))
    (required : List String)
    (hsig : ∀ p ∈ signals, (SigEntry.signal p.2).isSome = true) :
    missingSignals signals required = offendingSignals signals required := by
  unfold missingSignals offendingSignals
  apply List.filter_congr
  intro name _
  cases hd : dget signals name with
  | none => rfl
  | some e =>
    have hs : e.signal.isSome = true := hsig (name, e) (dget_mem hd)
    cases he : e.signal with
    | none => rw [he] at hs; simp at hs
    | some v => simp [he]

theorem v04_eq_of_valid (signals : List (String × SigEntry)) (config : Config)
    (ms : MarketState) (hms : config.market_state = some ms)
    (hval : validate_market_state_config config = .ok ()) :
    compute_market_state_v04 signals config =
      if ms.enabled = some false then
        .ok ⟨((ms.output.getD {}).na_label).getD "NA", "disabled", none⟩
      else if missingSignals signals (ms.required_signals.getD []) = [] then
        match labelLoop (actualGet signals (ms.required_signals.getD []))
            (ms.labels.getD []) (ms.labels_order.getD []) with
        | some l => .ok ⟨l, "v0.4_config", none⟩
        | none =>
          match firstDefault (ms.labels.getD []) with
          | some d => .ok ⟨d, "v0.4_config", none⟩
          | none => .ok ⟨"MIXED", "v0.4_config", none⟩
      else
        .ok ⟨((ms.output.getD {}).na_label).getD "NA", "v0.4_config",
          some (missingSignals signals (ms.required_signals.getD []))⟩ := by
  unfold compute_market_state_v04
  rw [hval, hms]
  rfl

theorem validate_eq_of_some (config : Config) (ms : MarketState)
    (hms : config.market_state = some ms) :
    validate_market_state_config config =
      (match ms.required_signals with
       | none => .error "market_state.required_signals must be a non-empty list"
       | some rs =>
         if rs = [] then .error "market_state.required_signals must be a non-empty list"
         else
           match ms.labels_order with
           | none => .error "market_state.labels_order must be a non-empty list"
           | some order =>
             if order = [] then .error "market_state.labels_order must be a non-empty list"
             else
               match ms.labels with
               | none => .error "market_state.labels must be a dict"
               | some labels => validateLabels labels order) := by
  unfold validate_market_state_config
  rw [hms]

theorem validate_ok_parts_full (config : Config) (ms : MarketState)
    (hms : config.market_state = some ms)
    (hval : validate_market_state_config config = .ok ()) :
    ∃ rs labels order, ms.required_signals = some rs ∧ rs ≠ [] ∧
      ms.labels_order = some order ∧ order ≠ [] ∧ ms.labels = some labels ∧
      validateLabels labels order = .ok () := by
  unfold validate_market_state_config at hval
  rw [hms] at hval
  split at hval
  · exact absurd hval (by simp)
  · rename_i ms2 heq
    obtain rfl : ms = ms2 := by injection heq
    split at hval
    · exact absurd hval (by simp)
    · rename_i rs hrs
      split at hval
      · exact absurd hval (by simp)
      · rename_i hrsne
        split at hval
        · exact absurd hval (by simp)
        · rename_i order horder
          split at hval
          · exact absurd hval (by simp)
          · rename_i hordne
            split at hval
            · exact absurd hval (by simp)
            · rename_i labels hlabels
              exact ⟨rs, labels, order, hrs, hrsne, horder, hordne, hlabels, hval⟩

theorem validate_ok_parts (config : Config) (ms : MarketState)
    (hms : config.market_state = some ms)
    (hval : validate_market_state_config config = .ok ()) :
    ∃ labels order, ms.labels = some labels ∧ ms.labels_order = some order ∧
      validateLabels labels order = .ok () := by
  obtain ⟨rs, labels, order, hrs, hrsne, horder, hordne, hlabels, hvl⟩ :=
    validate_ok_parts_full config ms hms hval
  exact ⟨labels, order, hlabels, horder, hvl⟩

theorem validateLabels_cons (labels : List (String × LabelDef)) (l : String)
    (rest : List String) :
    validateLabels labels (l :: rest) =
      match checkLabel labels l with
      | .error e => .error e
      | .ok _ => validateLabels labels rest := rfl

theorem validateLabels_ok_of_mem (labels : List (String × LabelDef)) :
    ∀ order, (∀ l ∈ order, checkLabel labels l = .ok ()) →
      validateLabels labels order = .ok () := by
  intro order
  induction order with
  | nil => intro _; rfl
  | cons x rest ih =>
    intro h
    rw [validateLabels_cons, h x (List.mem_cons_self _ _)]
    exact ih (fun l hl => h l (List.mem_cons_of_mem _ hl))

theorem dget_append_of_some {β : Type} (l1 l2 : List (String × β)) (k : String)
    (v : β) (h : dget l1 k = some v) : dget (l1 ++ l2) k = some v := by
  induction l1 with
  | nil => simp [dget] at h
  | cons p rest ih =>
    rw [dget] at h
    rw [List.cons_append, dget]
    by_cases hk : p.1 = k
    · rw [if_pos hk] at h
      rw [if_pos hk]
      exact h
    · rw [if_neg hk] at h
      rw [if_neg hk]
      exact ih h

theorem checkLabel_append (labels extras : List (String × LabelDef)) (l : String)
    (h : checkLabel labels l = .ok ()) :
    checkLabel (labels ++ extras) l = .ok () := by
  obtain ⟨ld, hld, _⟩ := checkLabel_ok_facts labels l h
  have h2 := (checkLabel_eq_of_dget labels l ld hld).symm.trans h
  rw [checkLabel_eq_of_dget (labels ++ extras) l ld (dget_append_of_some labels extras l ld hld)]
  exact h2

theorem mapME_nil {α β : Type} (f : α → Except String β) : mapME f [] = .ok [] := rfl

theorem mapME_cons {α β : Type} (f : α → Except String β) (x : α) (xs : List α) :
    mapME f (x :: xs) =
      match f x with
      | .error e => .error e
      | .ok y =>
        match mapME f xs with
        | .error e => .error e
        | .ok ys => .ok (y :: ys) := rfl

theorem mapME_ok_mem {α β : Type} (f : α → Except String β) :
    ∀ (l : List α) (ys : List β), mapME f l = .ok ys →
      ∀ y ∈ ys, ∃ x ∈ l, f x = .ok y := by
  intro l
  induction l with
  | nil =>
    intro ys h y hy
    rw [mapME_nil] at h
    obtain rfl : ([] : List β) = ys := by injection h
    simp at hy
  | cons x xs ih =>
    intro ys h y hy
    rw [mapME_cons] at h
    split at h
    · exact absurd h (by simp)
    · rename_i b hfx
      split at h
      · exact absurd h (by simp)
      · rename_i bs hrest
        obtain rfl : b :: bs = ys := by injection h
        rcases List.mem_cons.mp hy with rfl | hy2
        · exact ⟨x, List.mem_cons_self _ _, hfx⟩
        · obtain ⟨x2, hx2, hfx2⟩ := ih bs hrest y hy2
          exact ⟨x2, List.mem_cons_of_mem _ hx2, hfx2⟩

theorem mapME_ok_of_all {α β : Type} (f : α → Except String β) :
    ∀ l : List α, (∀ x ∈ l, ∃ y, f x = .ok y) → ∃ ys, mapME f l = .ok ys := by
  intro l
  induction l with
  | nil => intro _; exact ⟨[], rfl⟩
  | cons x xs ih =>
    intro h
    obtain ⟨y, hy⟩ := h x (List.mem_cons_self _ _)
    obtain ⟨ys, hys⟩ := ih (fun q hq => h q (List.mem_cons_of_mem _ hq))
    exact ⟨y :: ys, by rw [mapME_cons, hy, hys]⟩

theorem mapME_error_of_mem {α β : Type} (f : α → Except String β) :
    ∀ (l : List α) (x : α), x ∈ l → (∀ y, f x ≠ .ok y) →
      ∃ e, mapME f l = .error e := by
  intro l
  induction l with
  | nil => intro x hx; simp at hx
  | cons q rest ih =>
    intro x hx hbad
    cases hfq : f q with
    | error e => exact ⟨e, by rw [mapME_cons, hfq]⟩
    | ok b =>
      rcases List.mem_cons.mp hx with rfl | hx2
      · exact absurd hfq (hbad b)
      · obtain ⟨e, he⟩ := ih x hx2 hbad
        exact ⟨e, by rw [mapME_cons, hfq, he]⟩

theorem buildSignalData_cons (prices : PriceTable) (n : String) (sd : SignalDef)
    (rest : List (String × SignalDef)) :
    buildSignalData prices ((n, sd) :: rest) =
      match valueSeries prices sd with
      | .error e => .error e
      | .ok vals =>
        match buildSignalData prices rest with
        | .error e => .error e
        | .ok rs => .ok ((n, ⟨vals, sd.rule⟩) :: rs) := rfl

theorem buildSignalData_ok_keys (prices : PriceTable) :
    ∀ (defs : List (String × SignalDef)) (sdl : List (String × SignalData)),
      buildSignalData prices defs = .ok sdl →
      sdl.map Prod.fst = defs.map Prod.fst := by
  intro defs
  induction defs with
  | nil =>
    intro sdl h
    obtain rfl : ([] : List (String × SignalData)) = sdl := by injection h
    rfl
  | cons p rest ih =>
    intro sdl h
    obtain ⟨n, sd⟩ := p
    rw [buildSignalData_cons] at h
    split at h
    · exact absurd h (by simp)
    · rename_i vals hvals
      split at h
      · exact absurd h (by simp)
      · rename_i rs hrs
        obtain rfl : (n, (⟨vals, sd.rule⟩ : SignalData)) :: rs = sdl := by injection h
        simp [ih rs hrs]

theorem buildSignalData_mem (prices : PriceTable) :
    ∀ (defs : List (String × SignalDef)) (sdl : List (String × SignalData)),
      buildSignalData prices defs = .ok sdl →
      ∀ q ∈ sdl, ∃ p ∈ defs, p.1 = q.1 ∧ valueSeries prices p.2 = .ok q.2.vals ∧
        q.2.rule = p.2.rule := by
  intro defs
  induction defs with
  | nil =>
    intro sdl h q hq
    obtain rfl : ([] : List (String × SignalData)) = sdl := by injection h
    simp at hq
  | cons p rest ih =>
    intro sdl h q hq
    obtain ⟨n, sd⟩ := p
    rw [buildSignalData_cons] at h
    split at h
    · exact absurd h (by simp)
    · rename_i vals hvals
      split at h
      · exact absurd h (by simp)
      · rename_i rs hrs
        obtain rfl : (n, (⟨vals, sd.rule⟩ : SignalData)) :: rs = sdl := by injection h
        rcases List.mem_cons.mp hq with rfl | hq2
        · exact ⟨(n, sd), List.mem_cons_self _ _, rfl, hvals, rfl⟩
        · obtain ⟨p2, hp2, he⟩ := ih rs hrs q hq2
          exact ⟨p2, List.mem_cons_of_mem _ hp2, he⟩

theorem valueSeries_ok_of_kind (prices : PriceTable) (sd : SignalDef)
    (h : sd.kind = "relative_strength" ∨ sd.kind = "price_proxy") :
    ∃ vals, valueSeries prices sd = .ok vals := by
  rcases h with h | h
  · exact ⟨List.zipWith (· / ·) (prices.col (sd.a.getD "")) (prices.col (sd.b.getD "")),
      by simp [valueSeries, h]⟩
  · exact ⟨prices.col (sd.ticker.getD ""), by simp [valueSeries, h]⟩

theorem valueSeries_error_of_bad_kind (prices : PriceTable) (sd : SignalDef)
    (h1 : sd.kind ≠ "relative_strength") (h2 : sd.kind ≠ "price_proxy") :
    valueSeries prices sd = .error ("Unknown signal kind: " ++ sd.kind) := by
  unfold valueSeries
  rw [if_neg h1, if_neg h2]

theorem buildSignalData_error_of_bad_kind (prices : PriceTable) :
    ∀ defs : List (String × SignalDef),
      (∃ p ∈ defs, p.2.kind ≠ "relative_strength" ∧ p.2.kind ≠ "price_proxy") →
      ∃ e, buildSignalData prices defs = .error e := by
  intro defs
  induction defs with
  | nil =>
    intro h
    obtain ⟨p, hp, _⟩ := h
    simp at hp
  | cons q rest ih =>
    intro h
    obtain ⟨n, sd⟩ := q
    obtain ⟨p, hp, hbad1, hbad2⟩ := h
    cases hvs : valueSeries prices sd with
    | error e => exact ⟨e, by rw [buildSignalData_cons, hvs]⟩
    | ok vals =>
      rcases List.mem_cons.mp hp with rfl | hp2
      · exact absurd hvs (by rw [valueSeries_error_of_bad_kind prices sd hbad1 hbad2]; simp)
      · obtain ⟨e, he⟩ := ih ⟨p, hp2, hbad1, hbad2⟩
        cases hrest : buildSignalData prices rest with
        | error e2 => exact ⟨e2, by rw [buildSignalData_cons, hvs, hrest]⟩
        | ok rs => exact absurd hrest (by rw [he]; simp)

theorem buildSignalData_ok_of_kinds (prices : PriceTable) :
    ∀ defs : List (String × SignalDef),
      (∀ p ∈ defs, p.2.kind = "relative_strength" ∨ p.2.kind = "price_proxy") →
      ∃ sdl, buildSignalData prices defs = .ok sdl := by
  intro defs
  induction defs with
  | nil => intro _; exact ⟨[], rfl⟩
  | cons q rest ih =>
    intro h
    obtain ⟨n, sd⟩ := q
    obtain ⟨vals, hvals⟩ :=
      valueSeries_ok_of_kind prices sd (h (n, sd) (List.mem_cons_self _ _))
    obtain ⟨rs, hrs⟩ := ih (fun p hp => h p (List.mem_cons_of_mem _ hp))
    exact ⟨(n, ⟨vals, sd.rule⟩) :: rs, by rw [buildSignalData_cons, hvals, hrs]⟩

theorem evalSignalsAt_cons (n : String) (s : SignalData)
    (rest : List (String × SignalData)) (window i : Nat) :
    evalSignalsAt ((n, s) :: rest) window i =
      match signalEval s window i with
      | .error e => .error e
      | .ok r =>
        match evalSignalsAt rest window i with
        | .error e => .error e
        | .ok rs => .ok ((n, r) :: rs) := rfl

theorem evalSignalsAt_ok_keys (window i : Nat) :
    ∀ (sdl : List (String × SignalData)) (results : List (String × (String × MetricEntry))),
      evalSignalsAt sdl window i = .ok results →
      results.map Prod.fst = sdl.map Prod.fst := by
  intro sdl
  induction sdl with
  | nil =>
    intro results h
    obtain rfl : ([] : List (String × (String × MetricEntry))) = results := by injection h
    rfl
  | cons q rest ih =>
    intro results h
    obtain ⟨n, s⟩ := q
    rw [evalSignalsAt_cons] at h
    split at h
    · exact absurd h (by simp)
    · rename_i r hr
      split at h
      · exact absurd h (by simp)
      · rename_i rs hrs
        obtain rfl : (n, r) :: rs = results := by injection h
        simp [ih rs hrs]

theorem evalSignalsAt_ok_of_all (window i : Nat) :
    ∀ sdl : List (String × SignalData),
      (∀ q ∈ sdl, ∃ r, signalEval q.2 window i = .ok r) →
      ∃ results, evalSignalsAt sdl window i = .ok results := by
  intro sdl
  induction sdl with
  | nil => intro _; exact ⟨[], rfl⟩
  | cons q rest ih =>
    intro h
    obtain ⟨n, s⟩ := q
    obtain ⟨r, hr⟩ := h (n, s) (List.mem_cons_self _ _)
    obtain ⟨rs, hrs⟩ := ih (fun p hp => h p (List.mem_cons_of_mem _ hp))
    exact ⟨(n, r) :: rs, by rw [evalSignalsAt_cons, hr, hrs]⟩

theorem signalEval_na (sdata : SignalData) (window i : Nat) (h : i + 1 < window) :
    signalEval sdata window i = .ok ("NA", ⟨some (sdata.vals.getD i 0), none⟩) := by
  unfold signalEval
  rw [rollingMean_eq_none _ h]

theorem signalEval_error_of_bad_rule (sdata : SignalData) (window i : Nat)
    (hw : window ≤ i + 1) (h1 : sdata.rule ≠ "gt_sma") (h2 : sdata.rule ≠ "lt_sma") :
    signalEval sdata window i = .error ("Unknown rule: " ++ sdata.rule) := by
  rw [signalEval_of_sma sdata window i _ (rollingMean_eq_some _ hw)]
  unfold classifyRule
  rw [if_neg h1, if_neg h2]

theorem dateRecord_eval (prices : PriceTable) (config : Config)
    (sdl : List (String × SignalData)) (tickers : List String) (i : Nat)
    (results : List (String × (String × MetricEntry)))
    (hres : evalSignalsAt sdl (config.window.getD 20) i = .ok results) :
    dateRecord prices config sdl tickers i =
      if (config.market_state.getD {}).version = some "0.4" then
        match compute_market_state_v04
            (results.map (fun p => (p.1, ⟨some p.2.1⟩))) config with
        | .error e => .error e
        | .ok st =>
          .ok (baseRecord prices config tickers i results
            (((((config.market_state.getD {}).output.getD {}).field).getD "state"), st))
      else
        .ok (baseRecord prices config tickers i results
          ("state", compute_market_state (results.map (fun p => (p.1, p.2.1))))) := by
  unfold dateRecord
  rw [hres]

theorem compute_signals_v2_gate_error (prices : PriceTable) (config : Config)
    (e : String) (hg : v2gate config = .error e) :
    compute_signals_v2 prices config = .error e := by
  unfold compute_signals_v2
  rw [hg]

theorem compute_signals_v2_build_error (prices : PriceTable) (config : Config)
    (e : String) (hg : v2gate config = .ok ())
    (hb : buildSignalData prices config.signals = .error e) :
    compute_signals_v2 prices config = .error e := by
  unfold compute_signals_v2
  rw [hg, hb]

theorem compute_signals_v2_ok_gate (prices : PriceTable) (config : Config)
    (sdl : List (String × SignalData)) (hg : v2gate config = .ok ())
    (hsdl : buildSignalData prices config.signals = .ok sdl) :
    compute_signals_v2 prices config =
      mapME (dateRecord prices config sdl
        (sortedDedup (tickerList (config.bench.getD "SPY") config.signals)))
        (List.range prices.dates.length) := by
  unfold compute_signals_v2
  rw [hg, hsdl]

theorem map_pair_fst {γ δ ε : Type} (f : δ → ε) :
    ∀ rs : List (γ × δ), (rs.map (fun p => (p.1, f p.2))).map Prod.fst = rs.map Prod.fst := by
  intro rs
  induction rs with
  | nil => rfl
  | cons p t ih => simp [ih]

/-! ### Claim theorems -/

/-- Claim C1: for every signal definition whose value series is derived from a
complete price table, with lookback window W, the classification at each of the
first W-1 dates is NA, and at every date from the W-th onward it is UP or DOWN
(never NA). -/
theorem signal_na_before_window_directional_after (prices : PriceTable)
    (sd : SignalDef) (vals : List ℚ) (window i : Nat)
    (hv : valueSeries prices sd = .ok vals) :
    (i + 1 < window →
      signalEval ⟨vals, sd.rule⟩ window i = .ok ("NA", ⟨some (vals.getD i 0), none⟩)) ∧
    (window ≤ i + 1 → sd.rule = "gt_sma" ∨ sd.rule = "lt_sma" →
      ∃ s m, signalEval ⟨vals, sd.rule⟩ window i = .ok (s, m) ∧
        (s = "UP" ∨ s = "DOWN")) := by
  constructor
  · intro h
    unfold signalEval
    rw [rollingMean_eq_none vals h]
  · intro h hr
    obtain ⟨sig, hsig, hud⟩ :=
      classifyRule_known sd.rule (vals.getD i 0)
        ((((vals.take (i + 1)).drop (i + 1 - window)).sum) / (window : ℚ)) hr
    refine ⟨sig,
      ⟨some (vals.getD i 0),
        some ((((vals.take (i + 1)).drop (i + 1 - window)).sum) / (window : ℚ))⟩,
      ?_, hud⟩
    rw [signalEval_of_sma ⟨vals, sd.rule⟩ window i _ (rollingMean_eq_some vals h), hsig]

/-- Witness for C1 at a concrete two-date table with window 2. -/
theorem signal_na_before_window_directional_after_witness :
    valueSeries c1Prices c1Def = .ok [1, 1] ∧
    ∃ s m, signalEval ⟨[1, 1], c1Def.rule⟩ 2 1 = .ok (s, m) ∧ (s = "UP" ∨ s = "DOWN") :=
  ⟨by rfl,
   (signal_na_before_window_directional_after c1Prices c1Def [1, 1] 2 1 (by rfl)).2
     (by decide) (Or.inl (by decide))⟩

/-- Claim C2: a value equal to its SMA classifies as DOWN under both the
`gt_sma` rule and the `lt_sma` rule — there is no tie label. -/
theorem equal_value_sma_is_down (v : ℚ) :
    compute_signal v (some v) "gt_sma" = .ok ("DOWN", v, some v) ∧
    compute_signal v (some v) "lt_sma" = .ok ("DOWN", v, some v) := by
  constructor <;> simp [compute_signal, classifyRule]

/-- Claim C3: whenever value ≠ SMA and the SMA is defined, the `gt_sma` and
`lt_sma` rules classify the pair oppositely: one says UP exactly when the
other says DOWN. -/
theorem opposite_rules_flip (v s : ℚ) (hne : v ≠ s) :
    (classifyRule "gt_sma" v s = .ok "UP" ↔ classifyRule "lt_sma" v s = .ok "DOWN") ∧
    (classifyRule "gt_sma" v s = .ok "DOWN" ↔ classifyRule "lt_sma" v s = .ok "UP") := by
  rcases lt_or_gt_of_ne hne with h | h
  · have h1 : ¬ s < v := not_lt_of_gt h
    simp [classifyRule, h, h1]
  · have h1 : ¬ v < s := not_lt_of_gt h
    simp [classifyRule, h, h1]

/-- Witness for C3 at the pair (2, 1). -/
theorem opposite_rules_flip_witness :
    (classifyRule "gt_sma" 2 1 = .ok "UP" ↔ classifyRule "lt_sma" 2 1 = .ok "DOWN") ∧
    (classifyRule "gt_sma" 2 1 = .ok "DOWN" ↔ classifyRule "lt_sma" 2 1 = .ok "UP") :=
  opposite_rules_flip 2 1 (by norm_num)

/-- Claim C5: the fixed three-signal legacy rule — any of `tech`, `utilities`,
`rates` classified NA gives label NA; else the UP/DOWN/DOWN pattern gives
RISK_ON, the DOWN/UP/UP pattern gives RISK_OFF, and any other combination
gives MIXED. -/
theorem legacy_fixed_rule (signals : List (String × String)) :
    (dget signals "tech" = some "NA" ∨ dget signals "utilities" = some "NA" ∨
        dget signals "rates" = some "NA" →
      compute_market_state signals = ⟨"NA", "v0.3_basic", none⟩) ∧
    (dget signals "tech" = some "UP" ∧ dget signals "utilities" = some "DOWN" ∧
        dget signals "rates" = some "DOWN" →
      compute_market_state signals = ⟨"RISK_ON", "v0.3_basic", none⟩) ∧
    (dget signals "tech" = some "DOWN" ∧ dget signals "utilities" = some "UP" ∧
        dget signals "rates" = some "UP" →
      compute_market_state signals = ⟨"RISK_OFF", "v0.3_basic", none⟩) ∧
    (¬(dget signals "tech" = some "NA" ∨ dget signals "utilities" = some "NA" ∨
        dget signals "rates" = some "NA") →
      ¬(dget signals "tech" = some "UP" ∧ dget signals "utilities" = some "DOWN" ∧
        dget signals "rates" = some "DOWN") →
      ¬(dget signals "tech" = some "DOWN" ∧ dget signals "utilities" = some "UP" ∧
        dget signals "rates" = some "UP") →
      compute_market_state signals = ⟨"MIXED", "v0.3_basic", none⟩) := by
  refine ⟨?_, ?_, ?_, ?_⟩
  · intro h
    simp only [compute_market_state]
    rw [if_pos h]
  · rintro ⟨h1, h2, h3⟩
    simp [compute_market_state, h1, h2, h3]
  · rintro ⟨h1, h2, h3⟩
    simp [compute_market_state, h1, h2, h3]
  · intro h1 h2 h3
    simp only [compute_market_state]
    rw [if_neg h1, if_neg h2, if_neg h3]

/-- Witness for C5: the RISK_ON scenario of the spec. -/
theorem legacy_fixed_rule_witness :
    compute_market_state [("tech", "UP"), ("utilities", "DOWN"), ("rates", "DOWN")] =
      ⟨"RISK_ON", "v0.3_basic", none⟩ :=
  (legacy_fixed_rule _).2.1 (by decide)

/-- Counterexample to claim C10 as stated: the signal set `{utilities: NA}` is
missing the key `tech` (and `rates`), its present signals fail both the
RISK_ON and RISK_OFF patterns, yet the emitted label is NA, not MIXED. -/
theorem legacy_missing_key_counterexample :
    compute_market_state [("utilities", "NA")] = ⟨"NA", "v0.3_basic", none⟩ ∧
    dget ([("utilities", "NA")] : List (String × String)) "tech" = none ∧
    dget ([("utilities", "NA")] : List (String × String)) "rates" = none := by
  decide

/-- Claim C10 amended: under the legacy rule, a signal set from which one of
`tech`, `utilities`, `rates` is entirely absent, and in which no present signal
among the three is classified NA, yields MIXED (absence alone never yields NA,
and with a key absent neither directional pattern can match). -/
theorem legacy_missing_key_mixed (signals : List (String × String))
    (habs : dget signals "tech" = none ∨ dget signals "utilities" = none ∨
      dget signals "rates" = none)
    (hna1 : dget signals "tech" ≠ some "NA")
    (hna2 : dget signals "utilities" ≠ some "NA")
    (hna3 : dget signals "rates" ≠ some "NA") :
    compute_market_state signals = ⟨"MIXED", "v0.3_basic", none⟩ := by
  have hno : ¬(dget signals "tech" = some "NA" ∨ dget signals "utilities" = some "NA" ∨
      dget signals "rates" = some "NA") := by
    rintro (h | h | h)
    · exact hna1 h
    · exact hna2 h
    · exact hna3 h
  have h1 : ¬(dget signals "tech" = some "UP" ∧ dget signals "utilities" = some "DOWN" ∧
      dget signals "rates" = some "DOWN") := by
    rcases habs with h | h | h <;> rintro ⟨p1, p2, p3⟩ <;> simp_all
  have h2 : ¬(dget signals "tech" = some "DOWN" ∧ dget signals "utilities" = some "UP" ∧
      dget signals "rates" = some "UP") := by
    rcases habs with h | h | h <;> rintro ⟨p1, p2, p3⟩ <;> simp_all
  simp only [compute_market_state]
  rw [if_neg hno, if_neg h1, if_neg h2]

/-- Witness for the amended C10 at a concrete set missing `tech`. -/
theorem legacy_missing_key_mixed_witness :
    compute_market_state [("utilities", "UP"), ("rates", "DOWN")] =
      ⟨"MIXED", "v0.3_basic", none⟩ :=
  legacy_missing_key_mixed _ (Or.inl (by decide)) (by decide) (by decide) (by decide)

/-- Claim C6: on the config-driven path (validated config, market state not
disabled, every signal entry carrying a classification, as the engine emits),
a date with at least one required signal absent or classified NA yields the
configured `na_label` with the offending signal names attached — uniformly in
the label rules, which are never consulted. -/
theorem v04_required_missing_na_label (signals : List (String × SigEntry))
    (config : Config) (ms : MarketState) (hms : config.market_state = some ms)
    (hval : validate_market_state_config config = .ok ())
    (hen : ms.enabled ≠ some false)
    (hsig : ∀ p ∈ signals, (SigEntry.signal p.2).isSome = true)
    (hmiss : offendingSignals signals (ms.required_signals.getD []) ≠ []) :
    compute_market_state_v04 signals config =
      .ok ⟨((ms.output.getD {}).na_label).getD "NA", "v0.4_config",
        some (offendingSignals signals (ms.required_signals.getD []))⟩ := by
  rw [v04_eq_of_valid signals config ms hms hval, if_neg hen,
    missingSignals_eq_offending signals _ hsig, if_neg hmiss]

/-- Witness for C6: the spec scenario, `required_signals = [rates]` with
`rates` classified NA and `na_label = NO_SIGNAL`. -/
theorem v04_required_missing_na_label_witness :
    compute_market_state_v04 c6Signals c6Config =
      .ok ⟨"NO_SIGNAL", "v0.4_config", some ["rates"]⟩ := by
  have h := v04_required_missing_na_label c6Signals c6Config c6MarketState rfl
    (by rfl) (by decide) (by decide) (by decide)
  rw [h]
  decide

/-- Counterexample to claim C4 as stated: label WANT is first in
`labels_order` and its entire `all` condition list is satisfied by the date's
actual classifications (the non-required signal `extra` is UP), no required
signal is missing or NA, yet the engine emits MIXED rather than WANT —
condition matching consults required signals only. -/
theorem v04_nonrequired_condition_counterexample :
    compute_market_state_v04 c4Signals c4Config = .ok ⟨"MIXED", "v0.4_config", none⟩ ∧
    ([{ signal := some "extra", is := some "UP" }] : List CondDef).all
      (condSatisfied (classificationOf c4Signals)) = true ∧
    offendingSignals c4Signals (c4MarketState.required_signals.getD []) = [] := by
  refine ⟨by decide, by decide, by decide⟩

/-- Claim C4 amended: on the config-driven path with no required signal
missing or NA, the emitted label is the first label of `labels_order` whose
`all` conditions are all satisfied by the classifications of the REQUIRED
signals (a condition naming a non-required signal never matches),
short-circuiting later labels; if none matches, the first label of the
`labels` mapping marked default; otherwise the literal MIXED. -/
theorem v04_first_match_on_required_signals (signals : List (String × SigEntry))
    (config : Config) (ms : MarketState) (hms : config.market_state = some ms)
    (hval : validate_market_state_config config = .ok ())
    (hen : ms.enabled ≠ some false)
    (hnomiss : missingSignals signals (ms.required_signals.getD []) = []) :
    compute_market_state_v04 signals config =
      .ok ⟨specLabelChoice (actualGet signals (ms.required_signals.getD []))
        (ms.labels.getD []) (ms.labels_order.getD []), "v0.4_config", none⟩ := by
  obtain ⟨labels, order, hlabels, horder, hvl⟩ := validate_ok_parts config ms hms hval
  have hfacts : ∀ l ∈ order, ∃ ld, dget labels l = some ld ∧
      (∀ conds, ld.all = some conds → conds ≠ []) :=
    fun l hl => checkLabel_ok_facts labels l (validateLabels_ok_mem labels order hvl l hl)
  rw [v04_eq_of_valid signals config ms hms hval, if_neg hen, if_pos hnomiss]
  simp only [hlabels, horder, Option.getD_some]
  rw [labelLoop_eq_find (actualGet signals (ms.required_signals.getD [])) labels order hfacts]
  unfold specLabelChoice
  cases hf : order.find? (fun l =>
      match (dget labels l).bind LabelDef.all with
      | none => false
      | some conds => conds.all (condSatisfied (actualGet signals (ms.required_signals.getD [])))) with
  | some l => simp only [hf]
  | none =>
    simp only [hf, firstDefault_eq_find labels]
    cases hd : labels.find? (fun p => p.2.default == some true) with
    | some p => simp only [hd, Option.map_some']
    | none => simp only [hd, Option.map_none']

/-- Witness for the amended C4: one required signal `tech` UP, one label GOOD
conditioned on it; the engine emits GOOD. -/
theorem v04_first_match_on_required_signals_witness :
    compute_market_state_v04 c4wSignals c4wConfig =
      .ok ⟨"GOOD", "v0.4_config", none⟩ := by
  have h := v04_first_match_on_required_signals c4wSignals c4wConfig c4wMarketState
    rfl (by rfl) (by decide) (by decide)
  rw [h]
  decide

/-- Counterexample to claim C8 as stated: a configuration in which two labels
are marked default passes `validate_market_state_config` — multiple defaults
are not rejected. -/
theorem multiple_defaults_accepted_counterexample :
    validate_market_state_config c8Config = .ok () ∧
    (c8MarketState.labels.getD []).countP (fun p => p.2.default == some true) = 2 := by
  refine ⟨by rfl, by decide⟩

/-- Claim C8 amended: the validator never counts default markers — appending
any number of additional default-marked labels to a configuration it accepts
yields a configuration it still accepts, so an accepted configuration may
carry any number of default labels. -/
theorem validator_accepts_extra_defaults (config : Config) (ds : List String)
    (h : validate_market_state_config config = .ok ()) :
    validate_market_state_config (withExtraDefaults config ds) = .ok () := by
  cases hms : config.market_state with
  | none =>
    unfold validate_market_state_config at h
    rw [hms] at h
    simp at h
  | some ms =>
    obtain ⟨rs, labels, order, hrs, hrsne, horder, hordne, hlabels, hvl⟩ :=
      validate_ok_parts_full config ms hms h
    have hms2 : (withExtraDefaults config ds).market_state =
        some { ms with labels := some (labels ++ extraDefaults ds) } := by
      simp [withExtraDefaults, hms, hlabels]
    rw [validate_eq_of_some _ _ hms2]
    simp only [hrs, horder]
    rw [if_neg hrsne, if_neg hordne]
    exact validateLabels_ok_of_mem _ order (fun l hl =>
      checkLabel_append labels (extraDefaults ds) l
        (validateLabels_ok_mem labels order hvl l hl))

/-- Witness for the amended C8: two default labels appended to an accepted
configuration keep it accepted. -/
theorem validator_accepts_extra_defaults_witness :
    validate_market_state_config (withExtraDefaults c4wConfig ["D1", "D2"]) = .ok () :=
  validator_accepts_extra_defaults c4wConfig ["D1", "D2"] (by rfl)

/-- Counterexample to claim C7 as stated: a configuration whose only signal
has the unknown rule `bogus` does not raise any error — on a one-date table
(no full window) the run completes with the signal classified NA, so the rule
error is neither raised at parse time nor at all. -/
theorem unknown_rule_not_raised_at_parse_counterexample :
    compute_signals_v2 c7Prices c7Config = .ok [c7Record] ∧
    c7SignalDef.rule ≠ "gt_sma" ∧ c7SignalDef.rule ≠ "lt_sma" := by
  refine ⟨by decide, by decide, by decide⟩

/-- Claim C7 amended: an unknown signal KIND raises a fatal error before any
date is evaluated; an unknown RULE is deferred to per-date evaluation — with
fewer dates than the window (every SMA NA) the run completes without error,
while with at least one full window the run fails. -/
theorem unknown_kind_at_parse_unknown_rule_per_date :
    (∀ (prices : PriceTable) (config : Config),
      (∃ p ∈ config.signals, p.2.kind ≠ "relative_strength" ∧ p.2.kind ≠ "price_proxy") →
      ∃ e, compute_signals_v2 prices config = .error e) ∧
    (∀ (prices : PriceTable) (config : Config),
      (∀ p ∈ config.signals, p.2.kind = "relative_strength" ∨ p.2.kind = "price_proxy") →
      (config.market_state.getD {}).version ≠ some "0.4" →
      prices.dates.length < config.window.getD 20 →
      ∃ records, compute_signals_v2 prices config = .ok records) ∧
    (∀ (prices : PriceTable) (config : Config) (n : String) (sd : SignalDef),
      config.signals = [(n, sd)] → sd.kind = "price_proxy" →
      sd.rule ≠ "gt_sma" → sd.rule ≠ "lt_sma" →
      (config.market_state.getD {}).version ≠ some "0.4" →
      1 ≤ config.window.getD 20 → config.window.getD 20 ≤ prices.dates.length →
      ∃ e, compute_signals_v2 prices config = .error e) := by
  refine ⟨?_, ?_, ?_⟩
  · intro prices config hbad
    cases hg : v2gate config with
    | error e => exact ⟨e, compute_signals_v2_gate_error prices config e hg⟩
    | ok u =>
      cases u
      obtain ⟨e, he⟩ := buildSignalData_error_of_bad_kind prices config.signals hbad
      exact ⟨e, compute_signals_v2_build_error prices config e hg he⟩
  · intro prices config hkinds hv4 hshort
    have hg : v2gate config = .ok () := by
      unfold v2gate
      rw [if_neg hv4]
    obtain ⟨sdl, hsdl⟩ := buildSignalData_ok_of_kinds prices config.signals hkinds
    have hall : ∀ i ∈ List.range prices.dates.length,
        ∃ rec, dateRecord prices config sdl
          (sortedDedup (tickerList (config.bench.getD "SPY") config.signals)) i = .ok rec := by
      intro i hi
      have hilt : i < prices.dates.length := List.mem_range.mp hi
      obtain ⟨results, hres⟩ := evalSignalsAt_ok_of_all (config.window.getD 20) i sdl
        (fun q _ => ⟨_, signalEval_na q.2 _ i (by omega)⟩)
      refine ⟨baseRecord prices config
        (sortedDedup (tickerList (config.bench.getD "SPY") config.signals)) i results
        ("state", compute_market_state (results.map (fun p => (p.1, p.2.1)))), ?_⟩
      rw [dateRecord_eval prices config sdl _ i results hres, if_neg hv4]
    obtain ⟨records, hrec⟩ := mapME_ok_of_all _ _ hall
    refine ⟨records, ?_⟩
    rw [compute_signals_v2_ok_gate prices config sdl hg hsdl, hrec]
  · intro prices config n sd hsig hkind hr1 hr2 hv4 hw hlen
    have hg : v2gate config = .ok () := by
      unfold v2gate
      rw [if_neg hv4]
    obtain ⟨vals, hvals⟩ := valueSeries_ok_of_kind prices sd (Or.inr hkind)
    have hsdl : buildSignalData prices config.signals = .ok [(n, ⟨vals, sd.rule⟩)] := by
      rw [hsig, buildSignalData_cons, hvals]
      rfl
    have hdre : dateRecord prices config [(n, ⟨vals, sd.rule⟩)]
        (sortedDedup (tickerList (config.bench.getD "SPY") config.signals))
        (config.window.getD 20 - 1) = .error ("Unknown rule: " ++ sd.rule) := by
      unfold dateRecord
      rw [evalSignalsAt_cons,
        signalEval_error_of_bad_rule ⟨vals, sd.rule⟩ _ _ (by omega) hr1 hr2]
    obtain ⟨e, he⟩ := mapME_error_of_mem
      (dateRecord prices config [(n, ⟨vals, sd.rule⟩)]
        (sortedDedup (tickerList (config.bench.getD "SPY") config.signals)))
      (List.range prices.dates.length) (config.window.getD 20 - 1)
      (List.mem_range.mpr (by omega)) (fun y => by rw [hdre]; simp)
    refine ⟨e, ?_⟩
    rw [compute_signals_v2_ok_gate prices config [(n, ⟨vals, sd.rule⟩)] hg hsdl, he]

/-- Witness for the amended C7: unknown kind errors on a one-date table;
unknown rule completes on a one-date table and errors on a twenty-date
table. -/
theorem unknown_kind_at_parse_unknown_rule_per_date_witness :
    (∃ e, compute_signals_v2 c7Prices c7kConfig = .error e) ∧
    (∃ records, compute_signals_v2 c7Prices c7Config = .ok records) ∧
    (∃ e, compute_signals_v2 c7LongPrices c7Config = .error e) :=
  ⟨unknown_kind_at_parse_unknown_rule_per_date.1 c7Prices c7kConfig
    ⟨("s", { kind := "nope", rule := "gt_sma" }), by decide, by decide, by decide⟩,
   unknown_kind_at_parse_unknown_rule_per_date.2.1 c7Prices c7Config
    (by decide) (by decide) (by decide),
   unknown_kind_at_parse_unknown_rule_per_date.2.2 c7LongPrices c7Config "s" c7SignalDef
    (by decide) (by decide) (by decide) (by decide) (by decide) (by decide) (by decide)⟩

/-- Counterexample to claim C9 as stated: the record emitted by the legacy
(v0.1) path carries no state object and no metrics mapping, and its ticker
list is the fixed, unsorted `[XLE, TLT, XLK, XLU, SPY]`. -/
theorem legacy_record_lacks_state_metrics_counterexample :
    compute_signals c7Prices 20 none = .ok [c9Record] ∧
    c9Record.state = none ∧ c9Record.metrics = none ∧
    sortedDedup c9Record.inputs.tickers ≠ c9Record.inputs.tickers := by
  refine ⟨by decide, by decide, by decide, by decide⟩

/-- Claim C9 amended: every record of the config-driven path carries the state
object under the configured field name, a metrics entry and a classification
for every configured signal, the inputs block with price field, window and the
sorted distinct ticker set (benchmark included), and the configured version
tag; records of the legacy v0.1 path carry the date, the four signal
classifications, an inputs block with benchmark, price field, window and the
fixed unsorted ticker list, and version 0.1 — but no state object and no
metrics mapping. -/
theorem record_fields_by_path :
    (∀ (prices : PriceTable) (config : Config) (records : List Record),
      compute_signals_v2 prices config = .ok records → ∀ r ∈ records,
        (∃ st, r.state = some (stateFieldName config, st)) ∧
        (∃ m, r.metrics = some m ∧ m.map Prod.fst = config.signals.map Prod.fst) ∧
        r.signals.map Prod.fst = config.signals.map Prod.fst ∧
        r.inputs = ⟨none, config.price_field.getD "adj_close", config.window.getD 20,
          sortedDedup (tickerList (config.bench.getD "SPY") config.signals)⟩ ∧
        r.version = config.version.getD "0.2") ∧
    (∀ (prices : PriceTable) (window : Nat) (r : Record),
      r ∈ compute_signals_v01 prices window →
        r.state = none ∧ r.metrics = none ∧
        r.signals.map Prod.fst = ["energy", "rates", "tech", "utilities"] ∧
        r.inputs = ⟨some "SPY", "adj_close", window, ["XLE", "TLT", "XLK", "XLU", "SPY"]⟩ ∧
        r.version = "0.1") := by
  constructor
  · intro prices config records h r hr
    unfold compute_signals_v2 at h
    split at h
    · exact absurd h (by simp)
    · split at h
      · exact absurd h (by simp)
      · rename_i sdl hsdl
        obtain ⟨i, hi, hdr⟩ := mapME_ok_mem _ _ _ h r hr
        unfold dateRecord at hdr
        split at hdr
        · exact absurd hdr (by simp)
        · rename_i results hres
          have hkeys : results.map Prod.fst = config.signals.map Prod.fst :=
            (evalSignalsAt_ok_keys _ _ sdl results hres).trans
              (buildSignalData_ok_keys prices config.signals sdl hsdl)
          split at hdr
          · rename_i hv4
            split at hdr
            · exact absurd hdr (by simp)
            · rename_i st hst
              injection hdr with hdr2
              subst hdr2
              refine ⟨⟨st, ?_⟩, ⟨_, rfl, ?_⟩, ?_, rfl, rfl⟩
              · simp [baseRecord, stateFieldName, hv4]
              · rw [map_pair_fst Prod.snd results]
                exact hkeys
              · show (results.map (fun p => (p.1, p.2.1))).map Prod.fst = _
                rw [map_pair_fst Prod.fst results]
                exact hkeys
          · rename_i hv4
            injection hdr with hdr2
            subst hdr2
            refine ⟨⟨compute_market_state (results.map (fun p => (p.1, p.2.1))), ?_⟩,
              ⟨_, rfl, ?_⟩, ?_, rfl, rfl⟩
            · simp [baseRecord, stateFieldName, hv4]
            · rw [map_pair_fst Prod.snd results]
              exact hkeys
            · show (results.map (fun p => (p.1, p.2.1))).map Prod.fst = _
              rw [map_pair_fst Prod.fst results]
              exact hkeys
  · intro prices window r hr
    obtain ⟨i, hi, rfl⟩ := List.mem_map.mp hr
    exact ⟨rfl, rfl, rfl, rfl, rfl⟩

/-- Witness for the amended C9, at the one-date table: the legacy record
lacks state and metrics; the config-driven record carries them. -/
theorem record_fields_by_path_witness :
    (c9Record.state = none ∧ c9Record.metrics = none ∧
      c9Record.signals.map Prod.fst = ["energy", "rates", "tech", "utilities"] ∧
      c9Record.inputs = ⟨some "SPY", "adj_close", 20, ["XLE", "TLT", "XLK", "XLU", "SPY"]⟩ ∧
      c9Record.version = "0.1") ∧
    ((∃ st, c7Record.state = some (stateFieldName c7Config, st)) ∧
      (∃ m, c7Record.metrics = some m ∧ m.map Prod.fst = c7Config.signals.map Prod.fst) ∧
      c7Record.signals.map Prod.fst = c7Config.signals.map Prod.fst ∧
      c7Record.inputs = ⟨none, c7Config.price_field.getD "adj_close", c7Config.window.getD 20,
        sortedDedup (tickerList (c7Config.bench.getD "SPY") c7Config.signals)⟩ ∧
      c7Record.version = c7Config.version.getD "0.2") :=
  ⟨record_fields_by_path.2 c7Prices 20 c9Record (by decide),
   record_fields_by_path.1 c7Prices c7Config [c7Record] (by decide) c7Record (by decide)⟩

end MSE
